import Mathlib

/-!
Verification of the palm-netlify-proxy edge handler.

The repository contains one Netlify edge function repeated in four minor
variants:

* src/netlify/functions/proxy.ts : allow-list header filtering, single
  upstream fetch (no retry);
* src/unnamed/part_000, first section (lines 1-112) : the same handler with a
  timeout-bounded, retrying upstream call;
* src/unnamed/part_000, second section (lines 113-254) : the retrying handler
  plus a static HTML landing page served for the root pathname;
* src/unnamed/part_000, third section (lines 255-392) : deny-list header
  filtering plus injection of synthetic browser-like headers, with the same
  retrying upstream call.

The definitions below are a shallow embedding of those handlers.  Header
collections become association lists, the network becomes an oracle giving the
outcome of each fetch attempt, and the platform Response / URL objects become
plain structures.
-/

/-- ASCII lower-casing of one character: the effect of JavaScript
String.prototype.toLowerCase on the basic latin range.  Header names are
ASCII token strings, so this captures the lowering the runtime applies to
them.  (Defined directly on the character code so that it evaluates inside
the kernel.) -/
def lowerChar (c : Char) : Char :=
  if c.toNat ≥ 65 ∧ c.toNat ≤ 90 then Char.ofNat (c.toNat + 32) else c

/-- ASCII lower-casing of a string, character by character: the embedding of
JavaScript String.prototype.toLowerCase as applied to header names. -/
def lowerStr (s : String) : String := String.mk (s.data.map lowerChar)

/-- Header collections, plain-object records and query-parameter lists are all
association lists of string pairs, in insertion order. -/
abbrev HeaderList := List (String × String)

/-- First-match lookup in an association list: the embedding of reading a
property of a plain object, or of Headers.prototype.get on a collection whose
keys are already normalized. -/
def lookupRecord (hs : HeaderList) (k : String) : Option String :=
  (hs.find? (fun p => p.1 == k)).map (fun p => p.2)

/-- Overwrite-in-place-or-append update of an association list: the embedding
of writing a property of a plain object, and of Headers.prototype.set once the
name has been normalized.  On collections with pairwise distinct keys (the
only ones the handlers build) this agrees with the platform behaviour. -/
def setRecord : HeaderList → String → String → HeaderList
  | [], k, v => [(k, v)]
  | p :: rest, k, v => if p.1 = k then (k, v) :: rest else p :: setRecord rest k v

/-- Headers.prototype.set: the name is normalized to lowercase before the
entry is stored. -/
def Headers.setH (hs : HeaderList) (k v : String) : HeaderList :=
  setRecord hs (lowerStr k) v

/-- Headers.prototype.get: the name is normalized to lowercase before the
lookup. -/
def Headers.getH (hs : HeaderList) (k : String) : Option String :=
  lookupRecord hs (lowerStr k)

/-- Headers.prototype.append: the name is normalized to lowercase; a value
already present under that name is combined with a comma-space separator. -/
def Headers.appendH (hs : HeaderList) (k v : String) : HeaderList :=
  match lookupRecord hs (lowerStr k) with
  | some old => setRecord hs (lowerStr k) (old ++ ", " ++ v)
  | none => hs ++ [(lowerStr k, v)]

/-- Construction of a Headers collection from raw wire-order name/value pairs
(the platform builds request.headers this way, appending each inbound header).
This is where header names get normalized to lowercase. -/
def Headers.fromRaw (raw : HeaderList) : HeaderList :=
  raw.foldl (fun hs p => Headers.appendH hs p.1 p.2) []

/-- An entry of the allow-list passed to pickHeaders: the source type is
(string | RegExp)[]; a RegExp entry is embedded as its matching predicate.
Every call site in the repository passes string entries only. -/
inductive AllowKey where
  | str (s : String)
  | pattern (test : String → Bool)

/-- The test one allow-list entry applies to a header name, from
src/netlify/functions/proxy.ts line 6: a string entry compares by exact
(case-sensitive) string equality, a RegExp entry by its match predicate. -/
def allowMatches (k : AllowKey) (key : String) : Bool :=
  match k with
  | .str s => s == key
  | .pattern t => t key

/-- pickHeaders from src/netlify/functions/proxy.ts lines 3-14 (and the two
identical copies in src/unnamed/part_000): iterate the names of the inbound
collection in order and copy an entry into a fresh Headers collection when
some allow-list entry matches its name.  Iterating the collection's entries
combines the headers.keys() loop with the headers.get(key) read; the
typeof value check of line 8 is always true for an existing entry. -/
def pickHeaders (headers : HeaderList) (keys : List AllowKey) : HeaderList :=
  headers.foldl
    (fun picked p =>
      if keys.any (fun k => allowMatches k p.1) then Headers.setH picked p.1 p.2
      else picked)
    []

/-- CORS_HEADERS, identical in all variants. -/
def CORS_HEADERS : HeaderList :=
  [("access-control-allow-origin", "*"),
   ("access-control-allow-methods", "*"),
   ("access-control-allow-headers", "*")]

/-- The allow-list passed to pickHeaders by the allow-list variants
(src/netlify/functions/proxy.ts lines 37-43). -/
def ALLOW_KEYS : List AllowKey :=
  [.str "content-type",
   .str "authorization",
   .str "x-goog-api-client",
   .str "x-goog-api-key",
   .str "accept-encoding"]

/-- The same five allow-list names as plain strings, for stating properties
of the filter. -/
def ALLOW_NAMES : List String :=
  ["content-type", "authorization", "x-goog-api-client", "x-goog-api-key",
   "accept-encoding"]

/-- BLOCKED_HEADERS from src/unnamed/part_000 lines 267-277 (deny-list
variant). -/
def BLOCKED_HEADERS : List String :=
  ["cookie", "set-cookie", "host", "referer", "user-agent", "x-forwarded-for",
   "x-real-ip", "x-forwarded-host", "x-forwarded-proto"]

/-- pickHeaders of the deny-list variant, src/unnamed/part_000 lines 279-291:
copy an entry unless its lower-cased name is on the blocked list. -/
def pickHeadersDeny (headers : HeaderList) (blockedKeys : List String) : HeaderList :=
  headers.foldl
    (fun picked p =>
      if !(blockedKeys.contains (lowerStr p.1)) then Headers.setH picked p.1 p.2
      else picked)
    []

/-- addProxyHeaders from src/unnamed/part_000 lines 293-300: unconditionally
set six synthetic browser-like headers on the outbound collection (the request
argument of the source function is unused). -/
def addProxyHeaders (headers : HeaderList) : HeaderList :=
  Headers.setH
    (Headers.setH
      (Headers.setH
        (Headers.setH
          (Headers.setH
            (Headers.setH headers "user-agent"
              "Mozilla/5.0 (Windows NT 10.0; Win64; x64) AppleWebKit/537.36 (KHTML, like Gecko) Chrome/120.0.0.0 Safari/537.36")
            "accept" "application/json, text/plain, */*")
          "accept-language" "en-US,en;q=0.9")
        "accept-encoding" "gzip, deflate, br")
      "cache-control" "no-cache")
    "pragma" "no-cache"

/-- REQUEST_TIMEOUT from src/unnamed/part_000 line 22: the per-attempt
timeout, in milliseconds, after which the in-flight fetch is aborted.  In the
embedding the outcome of each attempt (response, network error or timeout
abort) is supplied by the environment oracle, so the numeric value does not
appear in the control flow. -/
def REQUEST_TIMEOUT : Nat := 20000

/-- MAX_RETRIES from src/unnamed/part_000 line 23. -/
def MAX_RETRIES : Nat := 2

/-- RETRY_DELAY from src/unnamed/part_000 line 24, in milliseconds. -/
def RETRY_DELAY : Nat := 1000

/-- A JavaScript thrown value as the catch branches observe it: either an
instance of Error carrying its message string, or any other thrown value. -/
inductive JsError where
  | errorObj (message : String)
  | nonError
deriving DecidableEq, Repr

/-- The expression (error instanceof Error ? error.message : "Unknown error")
of the catch branches. -/
def errorMessage : JsError → String
  | .errorObj m => m
  | .nonError => "Unknown error"

/-- A response successfully received from upstream: its status code, its
header collection as iterated by Object.fromEntries (pairwise distinct,
already-lowercased names), and the identity of its body stream (none for an
empty body). -/
structure UpstreamResponse where
  status : Nat
  headers : HeaderList
  body : Option Nat
deriving DecidableEq, Repr

/-- Decidable equality of fetch outcomes, so that concrete instances of the
theorems below evaluate. -/
instance : DecidableEq (Except JsError UpstreamResponse) := fun a b =>
  match a, b with
  | .ok x, .ok y =>
    if h : x = y then isTrue (by rw [h]) else isFalse (fun hc => h (by injection hc))
  | .error x, .error y =>
    if h : x = y then isTrue (by rw [h]) else isFalse (fun hc => h (by injection hc))
  | .ok _, .error _ => isFalse (fun hc => by injection hc)
  | .error _, .ok _ => isFalse (fun hc => by injection hc)

/-- The body of a response the handler returns: nothing, a pass-through
upstream stream, the serialized JSON error object, or the static landing
page. -/
inductive ResponseBody where
  | empty
  | stream (id : Nat)
  | jsonError (error : String) (message : String)
  | html (content : String)
deriving DecidableEq, Repr

/-- A response the handler returns to the caller. -/
structure ResponseModel where
  status : Nat
  headers : HeaderList
  body : ResponseBody
deriving DecidableEq, Repr

/-- The observable result of one fetchWithTimeout call: the outcome handed
back to the caller, and how many cancellation timers the wrapper armed and
cleared while producing it. -/
structure TimeoutCallResult where
  result : Except JsError UpstreamResponse
  timersSet : Nat
  timersCleared : Nat
deriving DecidableEq, Repr

/-- fetchWithTimeout from src/unnamed/part_000 lines 28-43 (the deny-list
variant at lines 304-321 differs only in passing a half-duplex option to the
transport).  The network is external, so the outcome of the underlying fetch
(a response, or a thrown error - a timeout abort surfaces as a thrown error)
is a parameter.  The wrapper arms exactly one cancellation timer before the
call; the try branch clears it and returns the response, the catch branch
clears it and rethrows.  The timersSet / timersCleared counts record exactly
those source actions. -/
def fetchWithTimeout (fetchOutcome : Except JsError UpstreamResponse) : TimeoutCallResult :=
  match fetchOutcome with
  | .ok response => { result := .ok response, timersSet := 1, timersCleared := 1 }
  | .error e => { result := .error e, timersSet := 1, timersCleared := 1 }

/-- The observable result of one fetchWithRetry call: its outcome (the first
successful response, or the error thrown by the last attempt), the number of
attempts made, and the list of backoff sleeps awaited between attempts, in
order and in milliseconds. -/
structure RetryTrace where
  result : Except JsError UpstreamResponse
  attempts : Nat
  delays : List Nat
deriving DecidableEq, Repr

/-- The loop body of fetchWithRetry from src/unnamed/part_000 lines 45-61
(identical at lines 323-340), indexed by the current zero-based attempt and
the number of attempts still allowed after it (retries - attempt).  Each
attempt calls fetchWithTimeout on the outcome the environment oracle yields
for that attempt index; a success returns immediately; a failure stores the
error and, when attempts remain, sleeps RETRY_DELAY * (attempt + 1)
milliseconds before the next attempt; after the final failed attempt the
stored error (necessarily the last one observed) is thrown. -/
def fetchWithRetryGo (oracle : Nat → Except JsError UpstreamResponse) :
    Nat → Nat → RetryTrace
  | attempt, 0 =>
    match (fetchWithTimeout (oracle attempt)).result with
    | .ok r => { result := .ok r, attempts := attempt + 1, delays := [] }
    | .error e => { result := .error e, attempts := attempt + 1, delays := [] }
  | attempt, remaining + 1 =>
    match (fetchWithTimeout (oracle attempt)).result with
    | .ok r => { result := .ok r, attempts := attempt + 1, delays := [] }
    | .error _ =>
      let rest := fetchWithRetryGo oracle (attempt + 1) remaining
      { result := rest.result, attempts := rest.attempts,
        delays := RETRY_DELAY * (attempt + 1) :: rest.delays }

/-- fetchWithRetry from src/unnamed/part_000 lines 45-61: run the attempt
loop from attempt 0 with the given number of retries still allowed (every
call site uses the default argument MAX_RETRIES). -/
def fetchWithRetry (oracle : Nat → Except JsError UpstreamResponse)
    (retries : Nat) : RetryTrace :=
  fetchWithRetryGo oracle 0 retries

/-- A parsed URL: scheme, host, pathname and the mutable searchParams list. -/
structure URLModel where
  scheme : String
  host : String
  pathname : String
  searchParams : List (String × String)
deriving DecidableEq, Repr

/-- Whether a pathname begins with two slashes. -/
def startsWithTwoSlashes (s : String) : Bool :=
  match s.data with
  | c1 :: c2 :: _ => c1 == '/' && c2 == '/'
  | _ => false

/-- Embedding of the WHATWG URL constructor new URL(pathname, base) as the
handlers invoke it: the first argument is the pathname of the already-parsed
inbound URL (hence it begins with a slash and carries no query or fragment),
the base is an absolute URL with no path.  A path-absolute reference (single
leading slash) keeps the scheme and host of the base and contributes the
path.  A reference beginning with two slashes is a network-path reference
(RFC 3986 section 4.2, the relative-slash state of the WHATWG parser): it
supplies its own authority - the segment between the leading slashes and the
next slash - and only the remainder is the path.  (The degenerate case of an
empty authority segment, where the real constructor throws, is outside the
model.)  The constructed URL starts with an empty query. -/
def newURL (pathname : String) (baseScheme baseHost : String) : URLModel :=
  if startsWithTwoSlashes pathname then
    let rest := pathname.data.dropWhile (fun c => c == '/')
    let host := rest.takeWhile (fun c => c != '/')
    { scheme := baseScheme, host := String.mk host,
      pathname := String.mk (rest.drop host.length), searchParams := [] }
  else
    { scheme := baseScheme, host := baseHost, pathname := pathname,
      searchParams := [] }

/-- URLSearchParams.prototype.delete: remove every parameter with the given
name. -/
def deleteParam (ps : List (String × String)) (name : String) : List (String × String) :=
  ps.filter (fun p => p.1 != name)

/-- The URL reconstruction of the forward path (src/netlify/functions/proxy.ts
lines 29-35, identically src/unnamed/part_000 lines 71-75): build a URL from
the inbound pathname against the fixed upstream base, delete the reserved
parameter _path from the inbound query, and append every remaining inbound
parameter, in order, to the query of the new URL. -/
def buildUpstreamURL (pathname : String) (searchParams : List (String × String)) : URLModel :=
  let url := newURL pathname "https" "generativelanguage.googleapis.com"
  { url with searchParams := deleteParam searchParams "_path" }

/-- An inbound request as the handler observes it: the method, the pathname
and decoded query of request.url, the request.headers collection (names
normalized to lowercase by the platform Headers object), and the identity of
the body stream (none when there is no body). -/
structure RequestModel where
  method : String
  pathname : String
  searchParams : List (String × String)
  headers : HeaderList
  body : Option Nat
deriving DecidableEq, Repr

/-- The upstream call a handler issues on its forward path: the reconstructed
target URL and the forwarded method, filtered header collection and body
stream. -/
structure UpstreamCall where
  url : URLModel
  method : String
  headers : HeaderList
  body : Option Nat
deriving DecidableEq, Repr

/-- The upstream call the forward path of the allow-list handlers assembles
from a request: the rebuilt URL, the picked headers and the method and body
forwarded verbatim (src/netlify/functions/proxy.ts lines 29-48). -/
def forwardCall (request : RequestModel) : UpstreamCall :=
  { url := buildUpstreamURL request.pathname request.searchParams,
    method := request.method,
    headers := pickHeaders request.headers ALLOW_KEYS,
    body := request.body }

/-- Object spread {...base, ...overlay}: start from the base record and write
each overlay property over it in order, so overlay entries win on key
collision. -/
def mergeRecords (base overlay : HeaderList) : HeaderList :=
  overlay.foldl (fun acc p => setRecord acc p.1 p.2) base

/-- The preflight response of the OPTIONS branch: new Response(null,
{headers: CORS_HEADERS}) - default status 200, empty body, exactly the three
CORS headers. -/
def preflightResponse : ResponseModel :=
  { status := 200, headers := CORS_HEADERS, body := .empty }

/-- The response built on the success path: the upstream status verbatim, the
CORS record spread-merged with every upstream response header (upstream wins
on collision), and the upstream body stream passed through unmodified. -/
def forwardResponse (u : UpstreamResponse) : ResponseModel :=
  { status := u.status,
    headers := mergeRecords CORS_HEADERS u.headers,
    body := match u.body with
      | some i => .stream i
      | none => .empty }

/-- The response built by the catch branch: status 502, the CORS record plus
a JSON content type, and the serialized error object. -/
def errorResponse (e : JsError) : ResponseModel :=
  { status := 502,
    headers := mergeRecords CORS_HEADERS [("content-type", "application/json")],
    body := .jsonError "Proxy request failed" (errorMessage e) }

/-- The handler of src/netlify/functions/proxy.ts lines 22-79 (allow-list
variant without retry).  The outcome of the single upstream fetch is supplied
by the environment as fetchResult.  Besides the response returned to the
caller, the embedding records the upstream call issued on the forward path
(none on the preflight path, where no upstream call is made). -/
def handler (request : RequestModel)
    (fetchResult : Except JsError UpstreamResponse) :
    ResponseModel × Option UpstreamCall :=
  if request.method = "OPTIONS" then
    (preflightResponse, none)
  else
    let call := forwardCall request
    match fetchResult with
    | .ok response => (forwardResponse response, some call)
    | .error e => (errorResponse e, some call)

/-- The handler of src/unnamed/part_000 lines 63-112 (allow-list variant with
retry).  The per-attempt fetch outcomes are supplied by the environment
oracle; the embedding also records the retry trace of the forward path. -/
def handlerRetry (request : RequestModel)
    (oracle : Nat → Except JsError UpstreamResponse) :
    ResponseModel × Option (UpstreamCall × RetryTrace) :=
  if request.method = "OPTIONS" then
    (preflightResponse, none)
  else
    let call := forwardCall request
    let trace := fetchWithRetry oracle MAX_RETRIES
    match trace.result with
    | .ok response => (forwardResponse response, some (call, trace))
    | .error e => (errorResponse e, some (call, trace))

/-- The blank_html literal of src/unnamed/part_000 lines 185-203. -/
def blank_html : String :=
  "\n<!DOCTYPE html>\n<html>\n<head>\n  <meta charset=\"UTF-8\">\n  <title>Google PaLM API proxy on Netlify Edge</title>\n</head>\n<body>\n  <h1 id=\"google-palm-api-proxy-on-netlify-edge\">Google PaLM API proxy on Netlify Edge</h1>\n  <p>Tips: This project uses a reverse proxy to solve problems such as location restrictions in Google APIs. </p>\n  <p>If you have any of the following requirements, you may need the support of this project.</p>\n  <ol>\n  <li>When you see the error message &quot;User location is not supported for the API use&quot; when calling the Google PaLM API</li>\n  <li>You want to customize the Google PaLM API</li>\n  </ol>\n  <p>For technical discussions, please visit <a href=\"https://simonmy.com/posts/google-palm-api-proxy-on-netlify-edge.html\">https://simonmy.com/posts/google-palm-api-proxy-on-netlify-edge.html</a></p>\n</body>\n</html>\n    "

/-- The landing-page response of src/unnamed/part_000 lines 204-210: the
static HTML with the CORS record plus an HTML content type, default status
200. -/
def landingResponse : ResponseModel :=
  { status := 200,
    headers := mergeRecords CORS_HEADERS [("content-type", "text/html")],
    body := .html blank_html }

/-- The handler of src/unnamed/part_000 lines 175-254 (landing-page variant):
identical to handlerRetry except that a request whose pathname is the bare
root is answered with the static landing page before the forward path is
reached. -/
def handlerLanding (request : RequestModel)
    (oracle : Nat → Except JsError UpstreamResponse) :
    ResponseModel × Option (UpstreamCall × RetryTrace) :=
  if request.method = "OPTIONS" then
    (preflightResponse, none)
  else if request.pathname = "/" then
    (landingResponse, none)
  else
    let call := forwardCall request
    let trace := fetchWithRetry oracle MAX_RETRIES
    match trace.result with
    | .ok response => (forwardResponse response, some (call, trace))
    | .error e => (errorResponse e, some (call, trace))

set_option maxRecDepth 100000

theorem toNat_ofNat_valid (n : Nat) (h : n.isValidChar) : (Char.ofNat n).toNat = n := by
  rw [Char.ofNat, dif_pos h]; rfl

theorem lowerChar_idem (c : Char) : lowerChar (lowerChar c) = lowerChar c := by
  unfold lowerChar
  by_cases h : c.toNat ≥ 65 ∧ c.toNat ≤ 90
  · rw [if_pos h]
    have hv : (c.toNat + 32).isValidChar := Or.inl (by omega)
    rw [toNat_ofNat_valid _ hv, if_neg (by omega)]
  · rw [if_neg h, if_neg h]

theorem lowerStr_idem (s : String) : lowerStr (lowerStr s) = lowerStr s := by
  simp only [lowerStr, List.map_map]
  congr 1
  exact List.map_congr_left (fun c _ => lowerChar_idem c)

theorem lookup_cons (p : String × String) (l : HeaderList) (k : String) :
    lookupRecord (p :: l) k = if p.1 = k then some p.2 else lookupRecord l k := by
  by_cases h : p.1 = k
  · simp [lookupRecord, List.find?_cons_of_pos, h]
  · simp [lookupRecord, List.find?_cons_of_neg, h]

theorem lookup_setRecord_self (hs : HeaderList) (k v : String) :
    lookupRecord (setRecord hs k v) k = some v := by
  induction hs with
  | nil => simp [setRecord, lookup_cons]
  | cons p rest ih =>
    by_cases h : p.1 = k
    · simp [setRecord, h, lookup_cons]
    · simp [setRecord, h, lookup_cons, ih]

theorem lookup_setRecord_ne (hs : HeaderList) (k v k' : String) (h : k' ≠ k) :
    lookupRecord (setRecord hs k v) k' = lookupRecord hs k' := by
  have hkk : ¬ (k = k') := fun hc => h hc.symm
  induction hs with
  | nil => simp [setRecord, lookup_cons, hkk]
  | cons p rest ih =>
    by_cases hp : p.1 = k
    · have hpk : ¬ (p.1 = k') := fun hc => hkk (hp.symm.trans hc)
      simp [setRecord, hp, lookup_cons, hkk, hpk]
    · simp [setRecord, hp, lookup_cons, ih]

theorem mem_setRecord (hs : HeaderList) (k v : String) (q : String × String)
    (hq : q ∈ setRecord hs k v) : q = (k, v) ∨ q ∈ hs := by
  induction hs with
  | nil => simpa [setRecord] using hq
  | cons p rest ih =>
    by_cases hp : p.1 = k
    · rw [setRecord, if_pos hp] at hq
      rcases List.mem_cons.mp hq with h | h
      · exact Or.inl h
      · exact Or.inr (List.mem_cons_of_mem _ h)
    · rw [setRecord, if_neg hp] at hq
      rcases List.mem_cons.mp hq with h | h
      · exact Or.inr (h ▸ List.mem_cons_self _ _)
      · rcases ih h with h' | h'
        · exact Or.inl h'
        · exact Or.inr (List.mem_cons_of_mem _ h')

theorem mem_of_lookup_eq_some (hs : HeaderList) (k v : String)
    (h : lookupRecord hs k = some v) : (k, v) ∈ hs := by
  induction hs with
  | nil => simp [lookupRecord] at h
  | cons p rest ih =>
    obtain ⟨a, b⟩ := p
    rw [lookup_cons] at h
    by_cases hp : a = k
    · simp only [if_pos hp] at h
      injection h with h
      subst hp
      subst h
      exact List.mem_cons_self _ _
    · simp only [if_neg hp] at h
      exact List.mem_cons_of_mem _ (ih h)

theorem lookup_eq_none_of_not_mem (hs : HeaderList) (k : String)
    (h : k ∉ hs.map Prod.fst) : lookupRecord hs k = none := by
  induction hs with
  | nil => simp [lookupRecord]
  | cons p rest ih =>
    simp only [List.map_cons, List.mem_cons] at h
    push_neg at h
    rw [lookup_cons, if_neg (fun hc => h.1 hc.symm)]
    exact ih h.2

theorem allow_any_iff (s : String) :
    (ALLOW_KEYS.any (fun k => allowMatches k s) = true) ↔ s ∈ ALLOW_NAMES := by
  simp only [ALLOW_KEYS, ALLOW_NAMES, allowMatches, List.any_cons, List.any_nil,
    Bool.or_eq_true, beq_iff_eq, List.mem_cons, List.not_mem_nil, or_false]
  constructor
  · rintro (h | h | h | h | h | h)
    · exact Or.inl h.symm
    · exact Or.inr (Or.inl h.symm)
    · exact Or.inr (Or.inr (Or.inl h.symm))
    · exact Or.inr (Or.inr (Or.inr (Or.inl h.symm)))
    · exact Or.inr (Or.inr (Or.inr (Or.inr h.symm)))
    · exact absurd h (by decide)
  · rintro (h | h | h | h | h)
    · exact Or.inl h.symm
    · exact Or.inr (Or.inl h.symm)
    · exact Or.inr (Or.inr (Or.inl h.symm))
    · exact Or.inr (Or.inr (Or.inr (Or.inl h.symm)))
    · exact Or.inr (Or.inr (Or.inr (Or.inr (Or.inl h.symm))))

theorem allow_names_lower (s : String) (h : s ∈ ALLOW_NAMES) : lowerStr s = s := by
  simp only [ALLOW_NAMES, List.mem_cons, List.not_mem_nil, or_false] at h
  rcases h with rfl | rfl | rfl | rfl | rfl <;> decide

theorem pick_fold_keys (hs : HeaderList) (acc : HeaderList)
    (hacc : ∀ q ∈ acc, q.1 ∈ ALLOW_NAMES) :
    ∀ q ∈ hs.foldl
      (fun picked p =>
        if ALLOW_KEYS.any (fun k => allowMatches k p.1) then Headers.setH picked p.1 p.2
        else picked)
      acc,
      q.1 ∈ ALLOW_NAMES := by
  induction hs generalizing acc with
  | nil => simpa using hacc
  | cons p rest ih =>
    rw [List.foldl_cons]
    by_cases hm : ALLOW_KEYS.any (fun k => allowMatches k p.1) = true
    · rw [if_pos hm]
      refine ih _ (fun q hq => ?_)
      have hp1 : p.1 ∈ ALLOW_NAMES := (allow_any_iff p.1).mp hm
      rcases mem_setRecord _ _ _ _ (by simpa [Headers.setH, allow_names_lower p.1 hp1] using hq)
        with h' | h'
      · rw [h']
        exact hp1
      · exact hacc q h'
    · rw [if_neg hm]
      exact ih acc hacc

theorem pick_fold_lookup_none (hs : HeaderList) (acc : HeaderList) (k : String)
    (hk : k ∉ hs.map Prod.fst) :
    lookupRecord
      (hs.foldl
        (fun picked p =>
          if ALLOW_KEYS.any (fun k => allowMatches k p.1) then Headers.setH picked p.1 p.2
          else picked)
        acc)
      k = lookupRecord acc k := by
  induction hs generalizing acc with
  | nil => simp
  | cons p rest ih =>
    simp only [List.map_cons, List.mem_cons] at hk
    push_neg at hk
    rw [List.foldl_cons]
    by_cases hm : ALLOW_KEYS.any (fun k => allowMatches k p.1) = true
    · rw [if_pos hm, ih _ hk.2]
      have hp1 : p.1 ∈ ALLOW_NAMES := (allow_any_iff p.1).mp hm
      rw [Headers.setH, allow_names_lower p.1 hp1,
        lookup_setRecord_ne _ _ _ _ hk.1]
    · rw [if_neg hm]
      exact ih acc hk.2

theorem pick_fold_lookup_mem (hs : HeaderList) (acc : HeaderList) (k v : String)
    (hnd : (hs.map Prod.fst).Nodup) (hmem : (k, v) ∈ hs) (hk : k ∈ ALLOW_NAMES) :
    lookupRecord
      (hs.foldl
        (fun picked p =>
          if ALLOW_KEYS.any (fun k => allowMatches k p.1) then Headers.setH picked p.1 p.2
          else picked)
        acc)
      k = some v := by
  induction hs generalizing acc with
  | nil => simp at hmem
  | cons p rest ih =>
    rw [List.map_cons, List.nodup_cons] at hnd
    rw [List.foldl_cons]
    rcases List.mem_cons.mp hmem with heq | hmem'
    · subst heq
      have hm : ALLOW_KEYS.any (fun k' => allowMatches k' (k, v).1) = true :=
        (allow_any_iff k).mpr hk
      rw [if_pos hm]
      have hrest : k ∉ rest.map Prod.fst := by simpa using hnd.1
      rw [pick_fold_lookup_none rest _ k hrest, Headers.setH,
        allow_names_lower k hk, lookup_setRecord_self]
    · by_cases hm : ALLOW_KEYS.any (fun k' => allowMatches k' p.1) = true
      · rw [if_pos hm]
        exact ih _ hnd.2 hmem'
      · rw [if_neg hm]
        exact ih acc hnd.2 hmem'

theorem deny_fold_keys (hs : HeaderList) (acc : HeaderList)
    (hacc : ∀ q ∈ acc, lowerStr q.1 ∉ BLOCKED_HEADERS) :
    ∀ q ∈ hs.foldl
      (fun picked p =>
        if !(BLOCKED_HEADERS.contains (lowerStr p.1)) then Headers.setH picked p.1 p.2
        else picked)
      acc,
      lowerStr q.1 ∉ BLOCKED_HEADERS := by
  induction hs generalizing acc with
  | nil => simpa using hacc
  | cons p rest ih =>
    rw [List.foldl_cons]
    by_cases hm : (!(BLOCKED_HEADERS.contains (lowerStr p.1))) = true
    · rw [if_pos hm]
      refine ih _ (fun q hq => ?_)
      rcases mem_setRecord _ _ _ _ hq with h' | h'
      · rw [h', lowerStr_idem]
        intro hc
        have hcon : BLOCKED_HEADERS.contains (lowerStr p.1) = true :=
          List.contains_iff_exists_mem_beq.mpr ⟨lowerStr p.1, hc, by simp⟩
        have hm' : BLOCKED_HEADERS.contains (lowerStr p.1) = false := by simpa using hm
        rw [hm'] at hcon
        cases hcon
      · exact hacc q h'
    · rw [if_neg hm]
      exact ih acc hacc

theorem addProxy_getH (hs : HeaderList) :
    Headers.getH (addProxyHeaders hs) "user-agent"
      = some "Mozilla/5.0 (Windows NT 10.0; Win64; x64) AppleWebKit/537.36 (KHTML, like Gecko) Chrome/120.0.0.0 Safari/537.36"
    ∧ Headers.getH (addProxyHeaders hs) "accept" = some "application/json, text/plain, */*"
    ∧ Headers.getH (addProxyHeaders hs) "accept-language" = some "en-US,en;q=0.9"
    ∧ Headers.getH (addProxyHeaders hs) "accept-encoding" = some "gzip, deflate, br"
    ∧ Headers.getH (addProxyHeaders hs) "cache-control" = some "no-cache"
    ∧ Headers.getH (addProxyHeaders hs) "pragma" = some "no-cache" := by
  simp only [addProxyHeaders, Headers.setH, Headers.getH]
  rw [(by decide : lowerStr "user-agent" = "user-agent"),
    (by decide : lowerStr "accept" = "accept"),
    (by decide : lowerStr "accept-language" = "accept-language"),
    (by decide : lowerStr "accept-encoding" = "accept-encoding"),
    (by decide : lowerStr "cache-control" = "cache-control"),
    (by decide : lowerStr "pragma" = "pragma")]
  refine ⟨?_, ?_, ?_, ?_, ?_, ?_⟩
  · rw [lookup_setRecord_ne _ _ _ _ (by decide), lookup_setRecord_ne _ _ _ _ (by decide),
      lookup_setRecord_ne _ _ _ _ (by decide), lookup_setRecord_ne _ _ _ _ (by decide),
      lookup_setRecord_ne _ _ _ _ (by decide), lookup_setRecord_self]
  · rw [lookup_setRecord_ne _ _ _ _ (by decide), lookup_setRecord_ne _ _ _ _ (by decide),
      lookup_setRecord_ne _ _ _ _ (by decide), lookup_setRecord_ne _ _ _ _ (by decide),
      lookup_setRecord_self]
  · rw [lookup_setRecord_ne _ _ _ _ (by decide), lookup_setRecord_ne _ _ _ _ (by decide),
      lookup_setRecord_ne _ _ _ _ (by decide), lookup_setRecord_self]
  · rw [lookup_setRecord_ne _ _ _ _ (by decide), lookup_setRecord_ne _ _ _ _ (by decide),
      lookup_setRecord_self]
  · rw [lookup_setRecord_ne _ _ _ _ (by decide), lookup_setRecord_self]
  · rw [lookup_setRecord_self]

theorem merge_fold_lookup_none (ov : HeaderList) (acc : HeaderList) (k : String)
    (hk : k ∉ ov.map Prod.fst) :
    lookupRecord (ov.foldl (fun acc p => setRecord acc p.1 p.2) acc) k
      = lookupRecord acc k := by
  induction ov generalizing acc with
  | nil => simp
  | cons p rest ih =>
    simp only [List.map_cons, List.mem_cons] at hk
    push_neg at hk
    rw [List.foldl_cons, ih _ hk.2, lookup_setRecord_ne _ _ _ _ hk.1]

theorem merge_fold_lookup_mem (ov : HeaderList) (acc : HeaderList) (k v : String)
    (hnd : (ov.map Prod.fst).Nodup) (hmem : (k, v) ∈ ov) :
    lookupRecord (ov.foldl (fun acc p => setRecord acc p.1 p.2) acc) k = some v := by
  induction ov generalizing acc with
  | nil => simp at hmem
  | cons p rest ih =>
    rw [List.map_cons, List.nodup_cons] at hnd
    rw [List.foldl_cons]
    rcases List.mem_cons.mp hmem with heq | hmem'
    · subst heq
      have hrest : k ∉ rest.map Prod.fst := by simpa using hnd.1
      rw [merge_fold_lookup_none rest _ k hrest, lookup_setRecord_self]
    · exact ih _ hnd.2 hmem'

theorem mergeRecords_lookup_overlay (base ov : HeaderList) (k v : String)
    (hnd : (ov.map Prod.fst).Nodup) (hmem : (k, v) ∈ ov) :
    lookupRecord (mergeRecords base ov) k = some v :=
  merge_fold_lookup_mem ov base k v hnd hmem

theorem mergeRecords_lookup_base (base ov : HeaderList) (k : String)
    (hk : k ∉ ov.map Prod.fst) :
    lookupRecord (mergeRecords base ov) k = lookupRecord base k :=
  merge_fold_lookup_none ov base k hk

theorem fromRaw_fold_eq (raw : HeaderList) (acc : HeaderList)
    (hnd : (acc.map Prod.fst ++ raw.map (fun p => lowerStr p.1)).Nodup) :
    raw.foldl (fun hs p => Headers.appendH hs p.1 p.2) acc
      = acc ++ raw.map (fun p => (lowerStr p.1, p.2)) := by
  induction raw generalizing acc with
  | nil => simp
  | cons p rest ih =>
    rw [List.foldl_cons]
    have hnotin : lowerStr p.1 ∉ acc.map Prod.fst := by
      intro hc
      rcases (List.nodup_append.mp hnd) with ⟨-, -, hdisj⟩
      exact hdisj hc (by simp)
    have happ : Headers.appendH acc p.1 p.2 = acc ++ [(lowerStr p.1, p.2)] := by
      rw [Headers.appendH, lookup_eq_none_of_not_mem _ _ hnotin]
    rw [happ, ih]
    · simp
    · simp only [List.map_append, List.map_cons, List.map_nil] at *
      simpa [List.append_assoc] using hnd

theorem go_ok (oracle : Nat → Except JsError UpstreamResponse) (attempt remaining : Nat)
    (r : UpstreamResponse) (h : oracle attempt = .ok r) :
    fetchWithRetryGo oracle attempt remaining
      = { result := .ok r, attempts := attempt + 1, delays := [] } := by
  cases remaining <;> simp [fetchWithRetryGo, fetchWithTimeout, h]

theorem go_err_zero (oracle : Nat → Except JsError UpstreamResponse) (attempt : Nat)
    (e : JsError) (h : oracle attempt = .error e) :
    fetchWithRetryGo oracle attempt 0
      = { result := .error e, attempts := attempt + 1, delays := [] } := by
  simp [fetchWithRetryGo, fetchWithTimeout, h]

theorem go_err_succ (oracle : Nat → Except JsError UpstreamResponse)
    (attempt remaining : Nat) (e : JsError) (h : oracle attempt = .error e) :
    fetchWithRetryGo oracle attempt (remaining + 1)
      = { result := (fetchWithRetryGo oracle (attempt + 1) remaining).result,
          attempts := (fetchWithRetryGo oracle (attempt + 1) remaining).attempts,
          delays := RETRY_DELAY * (attempt + 1)
            :: (fetchWithRetryGo oracle (attempt + 1) remaining).delays } := by
  simp [fetchWithRetryGo, fetchWithTimeout, h]

theorem retry_all_fail (oracle : Nat → Except JsError UpstreamResponse)
    (e0 e1 e2 : JsError)
    (h0 : oracle 0 = .error e0) (h1 : oracle 1 = .error e1) (h2 : oracle 2 = .error e2) :
    fetchWithRetry oracle MAX_RETRIES =
      { result := .error e2, attempts := 3, delays := [1000, 2000] } := by
  have g2 : fetchWithRetryGo oracle 2 0
      = { result := .error e2, attempts := 3, delays := [] } := go_err_zero oracle 2 e2 h2
  have g1 : fetchWithRetryGo oracle 1 (0 + 1)
      = { result := .error e2, attempts := 3, delays := [2000] } := by
    rw [go_err_succ oracle 1 0 e1 h1]
    have : fetchWithRetryGo oracle (1 + 1) 0
        = { result := .error e2, attempts := 3, delays := [] } := g2
    rw [this]
    simp [RETRY_DELAY]
  have g0 : fetchWithRetryGo oracle 0 (1 + 1)
      = { result := .error e2, attempts := 3, delays := [1000, 2000] } := by
    rw [go_err_succ oracle 0 1 e0 h0]
    have : fetchWithRetryGo oracle (0 + 1) 1
        = { result := .error e2, attempts := 3, delays := [2000] } := g1
    rw [this]
    simp [RETRY_DELAY]
  exact g0

theorem retry_first_success (oracle : Nat → Except JsError UpstreamResponse)
    (j : Nat) (resp : UpstreamResponse) (hj : j ≤ MAX_RETRIES)
    (hok : oracle j = .ok resp)
    (hfail : ∀ i, i < j → ∃ e, oracle i = .error e) :
    fetchWithRetry oracle MAX_RETRIES =
      { result := .ok resp, attempts := j + 1,
        delays := (List.range j).map (fun i => RETRY_DELAY * (i + 1)) } := by
  have hj' : j ≤ 2 := hj
  have hcases : j = 0 ∨ j = 1 ∨ j = 2 := by omega
  rcases hcases with rfl | rfl | rfl
  · have : fetchWithRetryGo oracle 0 2
        = { result := .ok resp, attempts := 1, delays := [] } := go_ok oracle 0 2 resp hok
    simpa [fetchWithRetry, MAX_RETRIES] using this
  · obtain ⟨e0, he0⟩ := hfail 0 (by omega)
    have g1 : fetchWithRetryGo oracle (0 + 1) 1
        = { result := .ok resp, attempts := 2, delays := [] } := go_ok oracle 1 1 resp hok
    have g0 : fetchWithRetryGo oracle 0 (1 + 1)
        = { result := .ok resp, attempts := 2, delays := [1000] } := by
      rw [go_err_succ oracle 0 1 e0 he0, g1]
      simp [RETRY_DELAY]
    have : fetchWithRetry oracle MAX_RETRIES
        = { result := .ok resp, attempts := 2, delays := [1000] } := g0
    rw [this]
    simp [RETRY_DELAY, List.range_succ]
  · obtain ⟨e0, he0⟩ := hfail 0 (by omega)
    obtain ⟨e1, he1⟩ := hfail 1 (by omega)
    have g2 : fetchWithRetryGo oracle (1 + 1) 0
        = { result := .ok resp, attempts := 3, delays := [] } := go_ok oracle 2 0 resp hok
    have g1 : fetchWithRetryGo oracle (0 + 1) (0 + 1)
        = { result := .ok resp, attempts := 3, delays := [2000] } := by
      rw [go_err_succ oracle 1 0 e1 he1, g2]
      simp [RETRY_DELAY]
    have g0 : fetchWithRetryGo oracle 0 (1 + 1)
        = { result := .ok resp, attempts := 3, delays := [1000, 2000] } := by
      rw [go_err_succ oracle 0 1 e0 he0]
      have : fetchWithRetryGo oracle (0 + 1) 1
          = { result := .ok resp, attempts := 3, delays := [2000] } := g1
      rw [this]
      simp [RETRY_DELAY]
    have : fetchWithRetry oracle MAX_RETRIES
        = { result := .ok resp, attempts := 3, delays := [1000, 2000] } := g0
    rw [this]
    simp [RETRY_DELAY, List.range_succ]

theorem handler_options_eq (r : RequestModel) (f : Except JsError UpstreamResponse)
    (h : r.method = "OPTIONS") : handler r f = (preflightResponse, none) := by
  simp [handler, h]

theorem handler_ok_eq (r : RequestModel) (u : UpstreamResponse)
    (h : r.method ≠ "OPTIONS") :
    handler r (.ok u) = (forwardResponse u, some (forwardCall r)) := by
  simp [handler, h]

theorem handler_err_eq (r : RequestModel) (e : JsError)
    (h : r.method ≠ "OPTIONS") :
    handler r (.error e) = (errorResponse e, some (forwardCall r)) := by
  simp [handler, h]

theorem handlerRetry_options_eq (r : RequestModel)
    (oracle : Nat → Except JsError UpstreamResponse)
    (h : r.method = "OPTIONS") : handlerRetry r oracle = (preflightResponse, none) := by
  simp [handlerRetry, h]

theorem handlerRetry_ok_eq (r : RequestModel)
    (oracle : Nat → Except JsError UpstreamResponse) (u : UpstreamResponse)
    (h : r.method ≠ "OPTIONS")
    (hres : (fetchWithRetry oracle MAX_RETRIES).result = .ok u) :
    handlerRetry r oracle
      = (forwardResponse u, some (forwardCall r, fetchWithRetry oracle MAX_RETRIES)) := by
  simp [handlerRetry, h, hres]

theorem handlerRetry_err_eq (r : RequestModel)
    (oracle : Nat → Except JsError UpstreamResponse) (e : JsError)
    (h : r.method ≠ "OPTIONS")
    (hres : (fetchWithRetry oracle MAX_RETRIES).result = .error e) :
    handlerRetry r oracle
      = (errorResponse e, some (forwardCall r, fetchWithRetry oracle MAX_RETRIES)) := by
  simp [handlerRetry, h, hres]

theorem handlerLanding_options_eq (r : RequestModel)
    (oracle : Nat → Except JsError UpstreamResponse)
    (h : r.method = "OPTIONS") : handlerLanding r oracle = (preflightResponse, none) := by
  simp [handlerLanding, h]

theorem handlerLanding_root_eq (r : RequestModel)
    (oracle : Nat → Except JsError UpstreamResponse)
    (h : r.method ≠ "OPTIONS") (hp : r.pathname = "/") :
    handlerLanding r oracle = (landingResponse, none) := by
  simp [handlerLanding, h, hp]

theorem handlerLanding_ok_eq (r : RequestModel)
    (oracle : Nat → Except JsError UpstreamResponse) (u : UpstreamResponse)
    (h : r.method ≠ "OPTIONS") (hp : r.pathname ≠ "/")
    (hres : (fetchWithRetry oracle MAX_RETRIES).result = .ok u) :
    handlerLanding r oracle
      = (forwardResponse u, some (forwardCall r, fetchWithRetry oracle MAX_RETRIES)) := by
  simp [handlerLanding, h, hp, hres]

theorem handlerLanding_err_eq (r : RequestModel)
    (oracle : Nat → Except JsError UpstreamResponse) (e : JsError)
    (h : r.method ≠ "OPTIONS") (hp : r.pathname ≠ "/")
    (hres : (fetchWithRetry oracle MAX_RETRIES).result = .error e) :
    handlerLanding r oracle
      = (errorResponse e, some (forwardCall r, fetchWithRetry oracle MAX_RETRIES)) := by
  simp [handlerLanding, h, hp, hres]

/-- C1 counterexample: the claim asserts the upstream target of every
non-OPTIONS request carries the fixed authority
generativelanguage.googleapis.com; but for the inbound pathname
//evil.com/v1/models (a legal pathname of a parsed URL) the URL constructor
treats the path as a network-path reference and the forwarded host is
evil.com instead. -/
theorem C1_counterexample :
    ((handler
        { method := "GET", pathname := "//evil.com/v1/models",
          searchParams := [("_path", "ignored"), ("key", "abc")],
          headers := [], body := none }
        (.error .nonError)).2.map (fun c => c.url.host))
      = some "evil.com"
    ∧ "evil.com" ≠ "generativelanguage.googleapis.com" := by
  exact ⟨by decide, by decide⟩

/-- C1 (amended): for every non-OPTIONS inbound request whose pathname does
not begin with two slashes, the upstream target URL is built from the fixed
authority https generativelanguage.googleapis.com plus the inbound path, its
query is exactly the inbound query with every _path parameter removed and all
other parameters kept verbatim in order, and both the retry-free and the
retrying handler issue exactly that call. -/
theorem C1_upstream_url (r : RequestModel) (f : Except JsError UpstreamResponse)
    (oracle : Nat → Except JsError UpstreamResponse)
    (hm : r.method ≠ "OPTIONS") (hp : startsWithTwoSlashes r.pathname = false) :
    ((handler r f).2.map (fun c => c.url)) = some (forwardCall r).url
    ∧ ((handlerRetry r oracle).2.map (fun c => c.1.url)) = some (forwardCall r).url
    ∧ (forwardCall r).url.scheme = "https"
    ∧ (forwardCall r).url.host = "generativelanguage.googleapis.com"
    ∧ (forwardCall r).url.pathname = r.pathname
    ∧ (forwardCall r).url.searchParams = r.searchParams.filter (fun p => p.1 != "_path")
    ∧ (∀ p ∈ (forwardCall r).url.searchParams, p.1 ≠ "_path")
    ∧ (∀ p ∈ r.searchParams, p.1 ≠ "_path" → p ∈ (forwardCall r).url.searchParams) := by
  have hurl : (forwardCall r).url
      = { scheme := "https", host := "generativelanguage.googleapis.com",
          pathname := r.pathname,
          searchParams := r.searchParams.filter (fun p => p.1 != "_path") } := by
    simp [forwardCall, buildUpstreamURL, newURL, hp, deleteParam]
  refine ⟨?_, ?_, ?_, ?_, ?_, ?_, ?_, ?_⟩
  · cases f with
    | ok u => rw [handler_ok_eq r u hm]; rfl
    | error e => rw [handler_err_eq r e hm]; rfl
  · cases hres : (fetchWithRetry oracle MAX_RETRIES).result with
    | ok u => rw [handlerRetry_ok_eq r oracle u hm hres]; rfl
    | error e => rw [handlerRetry_err_eq r oracle e hm hres]; rfl
  · rw [hurl]
  · rw [hurl]
  · rw [hurl]
  · rw [hurl]
  · rw [hurl]
    intro p hpmem
    rcases List.mem_filter.mp hpmem with ⟨-, hne⟩
    simpa using hne
  · rw [hurl]
    intro p hpmem hne
    exact List.mem_filter.mpr ⟨hpmem, by simpa using hne⟩

/-- C1 witness: the worked example of the claim, GET /v1/models with the
query _path=ignored and key=abc, is forwarded to the fixed host with only
key=abc left in the query. -/
theorem C1_witness :
    ((handler
        { method := "GET", pathname := "/v1/models",
          searchParams := [("_path", "ignored"), ("key", "abc")],
          headers := [], body := none }
        (.error .nonError)).2.map (fun c => c.url))
      = some (forwardCall
          { method := "GET", pathname := "/v1/models",
            searchParams := [("_path", "ignored"), ("key", "abc")],
            headers := [], body := none }).url
    ∧ (forwardCall
        { method := "GET", pathname := "/v1/models",
          searchParams := [("_path", "ignored"), ("key", "abc")],
          headers := [], body := none }).url.host
      = "generativelanguage.googleapis.com"
    ∧ (forwardCall
        { method := "GET", pathname := "/v1/models",
          searchParams := [("_path", "ignored"), ("key", "abc")],
          headers := [], body := none }).url.searchParams
      = [("key", "abc")] := by
  have h := C1_upstream_url
    { method := "GET", pathname := "/v1/models",
      searchParams := [("_path", "ignored"), ("key", "abc")],
      headers := [], body := none }
    (.error .nonError) (fun _ => .error .nonError) (by decide) (by decide)
  exact ⟨h.1, h.2.2.2.1, by rw [h.2.2.2.2.2.1]; decide⟩

/-- C5 (confirmed): an OPTIONS request is answered immediately with the
default status 200, an empty body and exactly the three permissive CORS
headers, and no upstream call is made (in the retry-free and the retrying
allow-list handler alike). -/
theorem C5_preflight (r : RequestModel) (f : Except JsError UpstreamResponse)
    (oracle : Nat → Except JsError UpstreamResponse) (hm : r.method = "OPTIONS") :
    handler r f = (preflightResponse, none)
    ∧ handlerRetry r oracle = (preflightResponse, none)
    ∧ preflightResponse.status = 200
    ∧ preflightResponse.body = .empty
    ∧ preflightResponse.headers
      = [("access-control-allow-origin", "*"),
         ("access-control-allow-methods", "*"),
         ("access-control-allow-headers", "*")] := by
  exact ⟨handler_options_eq r f hm, handlerRetry_options_eq r oracle hm, rfl, rfl, rfl⟩

/-- C5 witness at a concrete OPTIONS request. -/
theorem C5_witness :
    handler
      { method := "OPTIONS", pathname := "/v1/models", searchParams := [],
        headers := [("origin", "https://a.example")], body := none }
      (.error .nonError) = (preflightResponse, none)
    ∧ preflightResponse.headers
      = [("access-control-allow-origin", "*"),
         ("access-control-allow-methods", "*"),
         ("access-control-allow-headers", "*")] := by
  have h := C5_preflight
    { method := "OPTIONS", pathname := "/v1/models", searchParams := [],
      headers := [("origin", "https://a.example")], body := none }
    (.error .nonError) (fun _ => .error .nonError) (by decide)
  exact ⟨h.1, h.2.2.2.2⟩

/-- C2 (confirmed): a response received from upstream on the first attempt,
whatever its status code, is not an error and is not retried: exactly one
attempt is made, the returned status is the upstream status, the body is the
upstream stream unmodified, and the headers are the CORS record merged with
every upstream header, upstream entries winning on key collision and the CORS
entries surviving where upstream has no such key. -/
theorem C2_upstream_passthrough (r : RequestModel)
    (oracle : Nat → Except JsError UpstreamResponse) (u : UpstreamResponse)
    (hm : r.method ≠ "OPTIONS") (h0 : oracle 0 = .ok u)
    (hnd : (u.headers.map Prod.fst).Nodup) :
    handlerRetry r oracle
      = (forwardResponse u,
         some (forwardCall r, { result := .ok u, attempts := 1, delays := [] }))
    ∧ (forwardResponse u).status = u.status
    ∧ (∀ i, u.body = some i → (forwardResponse u).body = .stream i)
    ∧ (u.body = none → (forwardResponse u).body = .empty)
    ∧ (∀ k v, (k, v) ∈ u.headers →
        lookupRecord (forwardResponse u).headers k = some v)
    ∧ (∀ k, k ∉ u.headers.map Prod.fst →
        lookupRecord (forwardResponse u).headers k = lookupRecord CORS_HEADERS k) := by
  have htr : fetchWithRetry oracle MAX_RETRIES
      = { result := .ok u, attempts := 1, delays := [] } := go_ok oracle 0 2 u h0
  refine ⟨?_, rfl, ?_, ?_, ?_, ?_⟩
  · rw [← htr]
    exact handlerRetry_ok_eq r oracle u hm (by rw [htr])
  · intro i hi
    simp [forwardResponse, hi]
  · intro hn
    simp [forwardResponse, hn]
  · intro k v hkv
    exact mergeRecords_lookup_overlay CORS_HEADERS u.headers k v hnd hkv
  · intro k hk
    exact mergeRecords_lookup_base CORS_HEADERS u.headers k hk

/-- C2 witness: an upstream 429 with one header and a body stream is relayed
verbatim on the first attempt. -/
theorem C2_witness :
    handlerRetry
      { method := "GET", pathname := "/v1/models", searchParams := [],
        headers := [], body := none }
      (fun _ => .ok { status := 429, headers := [("x-upstream", "1")], body := some 3 })
      = (forwardResponse { status := 429, headers := [("x-upstream", "1")], body := some 3 },
         some (forwardCall
            { method := "GET", pathname := "/v1/models", searchParams := [],
              headers := [], body := none },
          { result := .ok { status := 429, headers := [("x-upstream", "1")], body := some 3 },
            attempts := 1, delays := [] }))
    ∧ (forwardResponse
        { status := 429, headers := [("x-upstream", "1")], body := some 3 }).status = 429 := by
  have h := C2_upstream_passthrough
    { method := "GET", pathname := "/v1/models", searchParams := [],
      headers := [], body := none }
    (fun _ => .ok { status := 429, headers := [("x-upstream", "1")], body := some 3 })
    { status := 429, headers := [("x-upstream", "1")], body := some 3 }
    (by decide) rfl (by decide)
  exact ⟨h.1, h.2.1⟩

/-- C3 (confirmed): the retry wrapper makes exactly three zero-based attempts
when every attempt fails, sleeping 1000 then 2000 milliseconds between
consecutive attempts and not after the last, and fails with exactly the error
of the last attempt; and when some attempt succeeds first, its response is
returned immediately with no further attempts (j + 1 attempts in total and
one backoff sleep after each of the j failed attempts). -/
theorem C3_retry_contract (oracle : Nat → Except JsError UpstreamResponse)
    (e0 e1 e2 : JsError) (j : Nat) (resp : UpstreamResponse) :
    (oracle 0 = .error e0 → oracle 1 = .error e1 → oracle 2 = .error e2 →
      fetchWithRetry oracle MAX_RETRIES
        = { result := .error e2, attempts := 3, delays := [1000, 2000] })
    ∧ (j ≤ MAX_RETRIES → oracle j = .ok resp →
        (∀ i, i < j → ∃ e, oracle i = .error e) →
        fetchWithRetry oracle MAX_RETRIES
          = { result := .ok resp, attempts := j + 1,
              delays := (List.range j).map (fun i => RETRY_DELAY * (i + 1)) }) :=
  ⟨fun h0 h1 h2 => retry_all_fail oracle e0 e1 e2 h0 h1 h2,
   fun hj hok hfail => retry_first_success oracle j resp hj hok hfail⟩

/-- C3 witness: an oracle failing every attempt yields three attempts, the
backoff sleeps 1000 and 2000 milliseconds, and the last error; an oracle
succeeding at attempt 1 stops after two attempts. -/
theorem C3_witness :
    fetchWithRetry (fun i => .error (.errorObj (toString i))) MAX_RETRIES
      = { result := .error (.errorObj "2"), attempts := 3, delays := [1000, 2000] }
    ∧ fetchWithRetry
        (fun i => if i = 1 then .ok { status := 200, headers := [], body := none }
          else .error .nonError) MAX_RETRIES
      = { result := .ok { status := 200, headers := [], body := none },
          attempts := 2, delays := [1000] } := by
  constructor
  · exact (C3_retry_contract (fun i => .error (.errorObj (toString i)))
      (.errorObj "0") (.errorObj "1") (.errorObj "2") 0
      { status := 200, headers := [], body := none }).1 (by decide) (by decide) (by decide)
  · have h := (C3_retry_contract
      (fun i => if i = 1 then .ok { status := 200, headers := [], body := none }
        else .error .nonError)
      .nonError .nonError .nonError 1
      { status := 200, headers := [], body := none }).2
      (by decide) (by decide)
      (fun i hi => ⟨.nonError, by
        have hi0 : i = 0 := by omega
        subst hi0
        decide⟩)
    rw [h]
    decide

/-- C4 (confirmed): when the upstream call fails - in the retrying variants
after retries are exhausted - the handler returns status 502 with the three
CORS headers plus a JSON content type, and the JSON error body carries the
tag Proxy request failed together with the thrown Error's message, or the
string Unknown error for a non-Error thrown value. -/
theorem C4_proxy_error (r : RequestModel) (f : Except JsError UpstreamResponse)
    (oracle : Nat → Except JsError UpstreamResponse) (e : JsError)
    (hm : r.method ≠ "OPTIONS") :
    (f = .error e →
      (handler r f).1
        = { status := 502,
            headers := CORS_HEADERS ++ [("content-type", "application/json")],
            body := .jsonError "Proxy request failed" (errorMessage e) })
    ∧ ((fetchWithRetry oracle MAX_RETRIES).result = .error e →
      (handlerRetry r oracle).1
        = { status := 502,
            headers := CORS_HEADERS ++ [("content-type", "application/json")],
            body := .jsonError "Proxy request failed" (errorMessage e) })
    ∧ (∀ m, errorMessage (.errorObj m) = m)
    ∧ errorMessage .nonError = "Unknown error" := by
  have herr : errorResponse e
      = { status := 502,
          headers := CORS_HEADERS ++ [("content-type", "application/json")],
          body := .jsonError "Proxy request failed" (errorMessage e) } := by
    have hh : mergeRecords CORS_HEADERS [("content-type", "application/json")]
        = CORS_HEADERS ++ [("content-type", "application/json")] := by decide
    rw [errorResponse, hh]
  refine ⟨?_, ?_, fun m => rfl, rfl⟩
  · intro hf
    subst hf
    rw [handler_err_eq r e hm, herr]
  · intro hres
    rw [handlerRetry_err_eq r oracle e hm hres, herr]

/-- C4 witness: a request whose three attempts all throw a connection error
is answered with the 502 JSON error carrying that error's message. -/
theorem C4_witness :
    (handlerRetry
      { method := "POST", pathname := "/v1/models", searchParams := [],
        headers := [], body := some 5 }
      (fun _ => .error (.errorObj "connection reset"))).1
      = { status := 502,
          headers := CORS_HEADERS ++ [("content-type", "application/json")],
          body := .jsonError "Proxy request failed" (errorMessage (.errorObj "connection reset")) } := by
  have h := (C4_proxy_error
    { method := "POST", pathname := "/v1/models", searchParams := [],
      headers := [], body := some 5 }
    (.error (.errorObj "connection reset"))
    (fun _ => .error (.errorObj "connection reset"))
    (.errorObj "connection reset") (by decide)).2.1
  exact h (by decide)

/-- C6 (confirmed): the allow-list filter keeps exactly the entries whose
name equals one of the five allowed names by case-sensitive string equality:
every key of the output is one of the five, every inbound entry with an
allowed name survives with its value unmodified, and a name outside the
allow-list (including case variants of allowed names) never appears in the
output. -/
theorem C6_allowlist (hs : HeaderList) (hnd : (hs.map Prod.fst).Nodup) :
    (∀ q ∈ pickHeaders hs ALLOW_KEYS, q.1 ∈ ALLOW_NAMES)
    ∧ (∀ k v, (k, v) ∈ hs → k ∈ ALLOW_NAMES →
        lookupRecord (pickHeaders hs ALLOW_KEYS) k = some v)
    ∧ (∀ k, k ∉ ALLOW_NAMES → lookupRecord (pickHeaders hs ALLOW_KEYS) k = none) := by
  refine ⟨pick_fold_keys hs [] (by simp), ?_, ?_⟩
  · intro k v hkv hk
    exact pick_fold_lookup_mem hs [] k v hnd hkv hk
  · intro k hk
    cases hlk : lookupRecord (pickHeaders hs ALLOW_KEYS) k with
    | none => rfl
    | some v =>
      exact absurd (pick_fold_keys hs [] (by simp) (k, v)
        (mem_of_lookup_eq_some _ _ _ hlk)) hk

/-- C6 witness: content-type survives with its value, cookie is dropped, and
the case variant Content-Type is not matched by the case-sensitive filter. -/
theorem C6_witness :
    lookupRecord
        (pickHeaders [("content-type", "application/json"), ("cookie", "session=1")]
          ALLOW_KEYS)
        "content-type"
      = some "application/json"
    ∧ lookupRecord
        (pickHeaders [("content-type", "application/json"), ("cookie", "session=1")]
          ALLOW_KEYS)
        "cookie"
      = none
    ∧ lookupRecord (pickHeaders [("Content-Type", "application/json")] ALLOW_KEYS)
        "Content-Type"
      = none := by
  have h := C6_allowlist [("content-type", "application/json"), ("cookie", "session=1")]
    (by decide)
  have h2 := C6_allowlist [("Content-Type", "application/json")] (by decide)
  exact ⟨h.2.1 "content-type" "application/json" (by decide) (by decide),
    h.2.2 "cookie" (by decide),
    h2.2.2 "Content-Type" (by decide)⟩

/-- C7 (confirmed): under the deny-list policy no key of the filtered result
matches a blocked name case-insensitively, and the six synthetic headers are
unconditionally present with their fixed values after injection, overwriting
any same-named survivors of the filter. -/
theorem C7_denylist (hs : HeaderList) :
    (∀ q ∈ pickHeadersDeny hs BLOCKED_HEADERS, lowerStr q.1 ∉ BLOCKED_HEADERS)
    ∧ Headers.getH (addProxyHeaders (pickHeadersDeny hs BLOCKED_HEADERS)) "user-agent"
      = some "Mozilla/5.0 (Windows NT 10.0; Win64; x64) AppleWebKit/537.36 (KHTML, like Gecko) Chrome/120.0.0.0 Safari/537.36"
    ∧ Headers.getH (addProxyHeaders (pickHeadersDeny hs BLOCKED_HEADERS)) "accept"
      = some "application/json, text/plain, */*"
    ∧ Headers.getH (addProxyHeaders (pickHeadersDeny hs BLOCKED_HEADERS)) "accept-language"
      = some "en-US,en;q=0.9"
    ∧ Headers.getH (addProxyHeaders (pickHeadersDeny hs BLOCKED_HEADERS)) "accept-encoding"
      = some "gzip, deflate, br"
    ∧ Headers.getH (addProxyHeaders (pickHeadersDeny hs BLOCKED_HEADERS)) "cache-control"
      = some "no-cache"
    ∧ Headers.getH (addProxyHeaders (pickHeadersDeny hs BLOCKED_HEADERS)) "pragma"
      = some "no-cache" := by
  have ha := addProxy_getH (pickHeadersDeny hs BLOCKED_HEADERS)
  exact ⟨deny_fold_keys hs [] (by simp), ha.1, ha.2.1, ha.2.2.1, ha.2.2.2.1,
    ha.2.2.2.2.1, ha.2.2.2.2.2⟩

/-- C7 witness: with an inbound collection containing a cookie and a custom
header, the surviving key is not blocked and the synthetic user-agent is
present after injection. -/
theorem C7_witness :
    lowerStr "x-custom" ∉ BLOCKED_HEADERS
    ∧ Headers.getH
        (addProxyHeaders
          (pickHeadersDeny [("cookie", "session=1"), ("x-custom", "1")] BLOCKED_HEADERS))
        "user-agent"
      = some "Mozilla/5.0 (Windows NT 10.0; Win64; x64) AppleWebKit/537.36 (KHTML, like Gecko) Chrome/120.0.0.0 Safari/537.36" := by
  have h := C7_denylist [("cookie", "session=1"), ("x-custom", "1")]
  exact ⟨h.1 ("x-custom", "1") (by decide), h.2.1⟩

/-- C8 counterexample: in the landing-page variant a GET for the bare root
pathname is answered with the static HTML page, which is none of the three
claimed terminal outcomes (preflight, forwarded upstream response, 502 JSON
error). -/
theorem C8_counterexample :
    ¬ ((handlerLanding
          { method := "GET", pathname := "/", searchParams := [],
            headers := [], body := none }
          (fun _ => .error .nonError)).1 = preflightResponse
      ∨ (∃ u, (handlerLanding
          { method := "GET", pathname := "/", searchParams := [],
            headers := [], body := none }
          (fun _ => .error .nonError)).1 = forwardResponse u)
      ∨ (∃ e, (handlerLanding
          { method := "GET", pathname := "/", searchParams := [],
            headers := [], body := none }
          (fun _ => .error .nonError)).1 = errorResponse e)) := by
  have hb : (handlerLanding
      { method := "GET", pathname := "/", searchParams := [],
        headers := [], body := none }
      (fun _ => .error .nonError)).1.body = .html blank_html := by decide
  rintro (h | ⟨u, h⟩ | ⟨e, h⟩)
  · rw [h] at hb
    simp [preflightResponse] at hb
  · rw [h] at hb
    cases hu : u.body <;> simp [forwardResponse, hu] at hb
  · rw [h] at hb
    simp [errorResponse] at hb

/-- C8 (amended): an OPTIONS request terminates in the preflight response
(that branch precedes the URL construction); in the landing-page variant a
non-OPTIONS request for the bare root pathname terminates in the static HTML
landing page, a fourth response shape the original claim omits; and every
other request whose pathname does not begin with two slashes terminates in
exactly one of the two remaining outcomes, the forwarded upstream success
response or the 502 error response.  The two-slash exclusion confines the
guarantee to the region where the embedded URL constructor matches the real
one: a non-OPTIONS forward-path request whose pathname begins with two
slashes reaches new URL(pathname, base) outside the try block, and on an
empty authority segment - for example the reachable pathname consisting of
two slashes alone - the real constructor throws, crashing the handler with no
response produced at all, an outcome outside the claimed set. -/
theorem C8_outcomes (r : RequestModel) (f : Except JsError UpstreamResponse)
    (oracle : Nat → Except JsError UpstreamResponse) :
    ((r.method = "OPTIONS" → handler r f = (preflightResponse, none))
    ∧ (r.method ≠ "OPTIONS" → startsWithTwoSlashes r.pathname = false →
        ∀ u, f = .ok u → handler r f = (forwardResponse u, some (forwardCall r)))
    ∧ (r.method ≠ "OPTIONS" → startsWithTwoSlashes r.pathname = false →
        ∀ e, f = .error e → handler r f = (errorResponse e, some (forwardCall r))))
    ∧ ((r.method = "OPTIONS" → handlerLanding r oracle = (preflightResponse, none))
    ∧ (r.method ≠ "OPTIONS" → r.pathname = "/" →
        handlerLanding r oracle = (landingResponse, none))
    ∧ (r.method ≠ "OPTIONS" → r.pathname ≠ "/" →
        startsWithTwoSlashes r.pathname = false →
        ∀ u, (fetchWithRetry oracle MAX_RETRIES).result = .ok u →
          handlerLanding r oracle
            = (forwardResponse u, some (forwardCall r, fetchWithRetry oracle MAX_RETRIES)))
    ∧ (r.method ≠ "OPTIONS" → r.pathname ≠ "/" →
        startsWithTwoSlashes r.pathname = false →
        ∀ e, (fetchWithRetry oracle MAX_RETRIES).result = .error e →
          handlerLanding r oracle
            = (errorResponse e, some (forwardCall r, fetchWithRetry oracle MAX_RETRIES)))) := by
  refine ⟨⟨fun hm => handler_options_eq r f hm, ?_, ?_⟩,
    fun hm => handlerLanding_options_eq r oracle hm,
    fun hm hp => handlerLanding_root_eq r oracle hm hp,
    fun hm hp _ u hres => handlerLanding_ok_eq r oracle u hm hp hres,
    fun hm hp _ e hres => handlerLanding_err_eq r oracle e hm hp hres⟩
  · intro hm _ u hf
    subst hf
    exact handler_ok_eq r u hm
  · intro hm _ e hf
    subst hf
    exact handler_err_eq r e hm

/-- C8 witness: the amended characterization applied to a concrete forwarded
request and to the concrete landing-page request. -/
theorem C8_witness :
    handler
      { method := "GET", pathname := "/v1/models", searchParams := [],
        headers := [], body := none }
      (.ok { status := 200, headers := [], body := some 1 })
      = (forwardResponse { status := 200, headers := [], body := some 1 },
         some (forwardCall
          { method := "GET", pathname := "/v1/models", searchParams := [],
            headers := [], body := none }))
    ∧ handlerLanding
        { method := "GET", pathname := "/", searchParams := [],
          headers := [], body := none }
        (fun _ => .error .nonError)
      = (landingResponse, none) := by
  have h := C8_outcomes
    { method := "GET", pathname := "/v1/models", searchParams := [],
      headers := [], body := none }
    (.ok { status := 200, headers := [], body := some 1 })
    (fun _ => .error .nonError)
  have h2 := C8_outcomes
    { method := "GET", pathname := "/", searchParams := [],
      headers := [], body := none }
    (.ok { status := 200, headers := [], body := some 1 })
    (fun _ => .error .nonError)
  exact ⟨h.1.2.1 (by decide) (by decide) { status := 200, headers := [], body := some 1 } rfl,
    h2.2.2.1 (by decide) (by decide)⟩

/-- C9 (confirmed): the timeout wrapper clears every cancellation timer it
arms before returning, on the success path and on the failure path alike, and
hands the underlying outcome through unchanged. -/
theorem C9_timer_cleared (o : Except JsError UpstreamResponse) :
    (fetchWithTimeout o).timersCleared = (fetchWithTimeout o).timersSet
    ∧ (∀ r, o = .ok r →
        (fetchWithTimeout o).timersCleared = 1 ∧ (fetchWithTimeout o).result = .ok r)
    ∧ (∀ e, o = .error e →
        (fetchWithTimeout o).timersCleared = 1 ∧ (fetchWithTimeout o).result = .error e) := by
  cases o with
  | ok r =>
    refine ⟨rfl, fun r' h => ?_, fun e h => ?_⟩
    · injection h with h
      subst h
      exact ⟨rfl, rfl⟩
    · cases h
  | error e =>
    refine ⟨rfl, fun r' h => ?_, fun e' h => ?_⟩
    · cases h
    · injection h with h
      subst h
      exact ⟨rfl, rfl⟩

/-- C9 witness: concrete success and failure outcomes both leave the timer
cleared. -/
theorem C9_witness :
    (fetchWithTimeout (.ok { status := 200, headers := [], body := none })).timersCleared = 1
    ∧ (fetchWithTimeout (.error .nonError)).timersCleared = 1 := by
  exact ⟨((C9_timer_cleared (.ok { status := 200, headers := [], body := none })).2.1
      { status := 200, headers := [], body := none } rfl).1,
    ((C9_timer_cleared (.error .nonError)).2.2 .nonError rfl).1⟩

/-- C10 (confirmed): an inbound header whose raw name differs from an allowed
name only in letter case is nevertheless kept by the allow-list filter, under
the lowercase key, because the platform header collection lowercases every
name before the filter's case-sensitive comparison. -/
theorem C10_lowercase_normalization (raw : HeaderList) (k v : String)
    (hmem : (k, v) ∈ raw) (hnd : (raw.map (fun p => lowerStr p.1)).Nodup)
    (hk : lowerStr k ∈ ALLOW_NAMES) :
    lookupRecord (pickHeaders (Headers.fromRaw raw) ALLOW_KEYS) (lowerStr k) = some v := by
  have hfr : Headers.fromRaw raw = raw.map (fun p => (lowerStr p.1, p.2)) := by
    have h := fromRaw_fold_eq raw [] (by simpa using hnd)
    simpa [Headers.fromRaw] using h
  have hmem' : (lowerStr k, v) ∈ Headers.fromRaw raw := by
    rw [hfr]
    exact List.mem_map.mpr ⟨(k, v), hmem, rfl⟩
  have hnd' : ((Headers.fromRaw raw).map Prod.fst).Nodup := by
    rw [hfr]
    simpa [List.map_map, Function.comp] using hnd
  exact pick_fold_lookup_mem (Headers.fromRaw raw) [] (lowerStr k) v hnd' hmem' hk

/-- C10 witness: the raw names Content-Type and AUTHORIZATION are kept under
their lowercase keys. -/
theorem C10_witness :
    lookupRecord
        (pickHeaders
          (Headers.fromRaw [("Content-Type", "application/json"), ("AUTHORIZATION", "Bearer t")])
          ALLOW_KEYS)
        (lowerStr "Content-Type")
      = some "application/json"
    ∧ lookupRecord
        (pickHeaders
          (Headers.fromRaw [("Content-Type", "application/json"), ("AUTHORIZATION", "Bearer t")])
          ALLOW_KEYS)
        (lowerStr "AUTHORIZATION")
      = some "Bearer t" := by
  exact ⟨C10_lowercase_normalization
      [("Content-Type", "application/json"), ("AUTHORIZATION", "Bearer t")]
      "Content-Type" "application/json" (by decide) (by decide) (by decide),
    C10_lowercase_normalization
      [("Content-Type", "application/json"), ("AUTHORIZATION", "Bearer t")]
      "AUTHORIZATION" "Bearer t" (by decide) (by decide) (by decide)⟩
